import Mathlib

/-!
Shallow embedding of the core of the `nvme-rs` NVMe driver
(src/memory.rs, src/queues.rs, src/io.rs, src/device.rs, src/cmd.rs,
src/error.rs), together with theorems settling the specification claims.

Machine integers are modelled as `Nat`, with `% 2^w` inserted exactly where
the Rust code performs a narrowing cast or wrapping arithmetic.  Fallible
computations return `Except NvmeError`; an operation that would panic
(usize underflow) or spin forever is modelled by `Option`, `none` standing
for the panic / the not-yet-returned spin.
-/

namespace NvmeRs

/-- Errors of the driver (src/error.rs; `QueueFull` is the name used by
`queues.rs`/`memory.rs` for the full-submission-ring error). -/
inductive NvmeError where
  | QueueFull
  | InvalidBufferSize
  | NotAlignedToDword
  | NotAlignedToPage
  | IoSizeExceedsMdts
  | QueueSizeTooSmall
  | QueueSizeExceedsMqes
  | CommandFailed (code : Nat)
deriving DecidableEq, Repr

/-- Rust `usize::div_ceil`: `(a + b - 1) / b` on naturals (`divCeil 0 b = 0`). -/
def divCeil (a b : Nat) : Nat := (a + b - 1) / b

/-- Model of the collaborator `NvmeAllocator` (src/memory.rs).
`translate` maps a virtual address to a physical one.  Fresh DMA pages
(`Dma::allocate`) are modelled by a supply indexed by an allocation
counter: the n-th fresh list page has physical address `freshPhys n` and
uninitialized slot contents `freshInit n` (the allocator returns
uninitialized memory). -/
structure AllocatorModel where
  translate : Nat → Nat
  freshPhys : Nat → Nat
  freshInit : Nat → Nat → Nat

/-- A `Dma<[u64; 512]>` PRP list page: its physical address and the
contents of its 512 slots (src/memory.rs). -/
structure PrpListPage where
  phys_addr : Nat
  entry : Nat → Nat

instance : Inhabited PrpListPage := ⟨⟨0, fun _ => 0⟩⟩

/-- Result of PRP creation (src/memory.rs, `PrpResult`). -/
inductive PrpResult where
  | Single (prp1 : Nat)
  | Double (prp1 prp2 : Nat)
  | List (prp1 : Nat) (pages : List PrpListPage)

/-- `PrpResult::get_prp` (src/memory.rs): first and second PRP addresses;
for a list, the second is the physical address of the first list page. -/
def PrpResult.get_prp : PrpResult → Nat × Nat
  | .Single prp => (prp, 0)
  | .Double prp1 prp2 => (prp1, prp2)
  | .List prp1 pages => (prp1, (pages.headI).phys_addr)

/-- State of the `PrpManager` (src/memory.rs): the bounded pool of cached
list pages (front of the list is the pop side of the `VecDeque`), its
capacity (default 32), and the count of fresh allocations made so far. -/
structure PrpManagerState where
  pool : List PrpListPage
  poolCap : Nat
  freshCount : Nat

/-- `self.list_pool.pop().unwrap_or_else(|| Dma::allocate(allocator))`:
take a cached page from the pool front, or allocate a fresh one. -/
def popPage (A : AllocatorModel) (st : PrpManagerState) : PrpListPage × PrpManagerState :=
  match st.pool with
  | p :: rest => (p, { st with pool := rest })
  | [] => ({ phys_addr := A.freshPhys st.freshCount, entry := A.freshInit st.freshCount },
           { st with freshCount := st.freshCount + 1 })

/-- The inner write loop of `PrpManager::create`
(`for i in 0..entries { prp_list[i] = prp2_start + (list_idx*511 + i)*4096 }`):
slot contents after writing slots `0..n-1` of a page whose previous
contents were `f`. -/
def writeSlots (f : Nat → Nat) (prp2_start listIdx : Nat) : Nat → Nat → Nat
  | 0 => f
  | n + 1 => fun j =>
      if j = n then prp2_start + (listIdx * 511 + n) * 4096
      else writeSlots f prp2_start listIdx n j

/-- The outer loop of `PrpManager::create`
(`for list_idx in 0..lists_needed { ... }`), building the pages for
indices `idx, idx+1, ...`; the first argument counts the iterations left. -/
def buildLists (A : AllocatorModel) (prp2_start remaining listsNeeded : Nat) :
    Nat → Nat → PrpManagerState → List PrpListPage × PrpManagerState
  | 0, _, st => ([], st)
  | n + 1, idx, st =>
      let entries := if idx = listsNeeded - 1 then remaining - idx * 511 else 511
      let ps := popPage A st
      let page1 : PrpListPage := { ps.1 with entry := writeSlots ps.1.entry prp2_start idx entries }
      let rest := buildLists A prp2_start remaining listsNeeded n (idx + 1) ps.2
      (page1 :: rest.1, rest.2)

/-- The chain loop of `PrpManager::create`
(`for index in 0..len-1 { prp_lists[index][511] = prp_lists[index+1].phys_addr }`). -/
def chainLists : List PrpListPage → List PrpListPage
  | [] => []
  | [p] => [p]
  | p :: q :: rest =>
      { p with entry := fun j => if j = 511 then q.phys_addr else p.entry j }
        :: chainLists (q :: rest)

/-- `PrpManager::create` (src/memory.rs:192-241).  Returns `none` exactly
where the Rust code would underflow `count - 1` in `let remaining = count - 1`
(possible only for `count = 0`, i.e. `bytes = 0` at a page-aligned address). -/
def prpCreate (A : AllocatorModel) (st : PrpManagerState) (address bytes : Nat) :
    Option (Except NvmeError PrpResult × PrpManagerState) :=
  let count := divCeil (address % 4096 + bytes) 4096
  let prp1 := A.translate address
  let prp2_start := A.translate (address + 4096)
  if address % 4 ≠ 0 then some (.error .NotAlignedToDword, st)
  else if count = 1 then some (.ok (.Single prp1), st)
  else if address % 4096 ≠ 0 then some (.error .NotAlignedToPage, st)
  else if count = 2 then some (.ok (.Double prp1 prp2_start), st)
  else if count = 0 then none
  else
    let remaining := count - 1
    let listsNeeded := divCeil (remaining - 1) 511
    let built := buildLists A prp2_start remaining listsNeeded listsNeeded 0 st
    some (.ok (.List prp1 (chainLists built.1)), built.2)

/-- `PrpManager::release` (src/memory.rs:249-259): list pages go back to
the pool while capacity remains, and are deallocated (dropped) otherwise. -/
def prpRelease (st : PrpManagerState) (r : PrpResult) : PrpManagerState :=
  match r with
  | .List _ pages =>
      pages.foldl
        (fun s p =>
          if s.pool.length = s.poolCap then s
          else { s with pool := s.pool ++ [p] })
        st
  | _ => st

/-- NVMe submission command (src/cmd.rs, `Command`); field values are the
Rust field values read as naturals. -/
structure Command where
  opcode : Nat
  flags : Nat
  cmd_id : Nat
  ns_id : Nat
  md_ptr : Nat
  data_ptr : Nat × Nat
  cmd_10 : Nat
  cmd_11 : Nat
  cmd_12 : Nat
  cmd_13 : Nat
  cmd_14 : Nat
  cmd_15 : Nat
deriving DecidableEq, Repr

/-- The all-zero `Command::default()`. -/
def cmdDefault : Command :=
  ⟨0, 0, 0, 0, 0, (0, 0), 0, 0, 0, 0, 0, 0⟩

instance : Inhabited Command := ⟨cmdDefault⟩

/-- `Command::read_write` (src/cmd.rs): opcode 1 for write, 2 for read;
`cmd_10/cmd_11` are the low/high 32 bits of the LBA, `cmd_12` the
(already narrowed) block count field. -/
def Command.read_write (cmd_id ns_id lba block_count : Nat) (data_ptr : Nat × Nat)
    (is_write : Bool) : Command :=
  { cmdDefault with
    opcode := if is_write then 1 else 2
    cmd_id := cmd_id
    ns_id := ns_id
    data_ptr := data_ptr
    cmd_10 := lba % 2 ^ 32
    cmd_11 := lba / 2 ^ 32 % 2 ^ 32
    cmd_12 := block_count % 2 ^ 32 }

/-- Completion-queue entry (src/queues.rs, `Completion`). -/
structure Completion where
  command_specific : Nat
  sq_head : Nat
  sq_id : Nat
  cmd_id : Nat
  status : Nat
deriving DecidableEq, Repr

/-- The phase tag of a completion entry: `(entry.status & 1) == 1`. -/
def Completion.phaseBit (e : Completion) : Bool := e.status % 2 == 1

/-- An NVMe submission ring (src/queues.rs, `SubQueue`): slot array of
capacity `size`, producer `tail`, controller-observed `head`. -/
structure SubQueue where
  size : Nat
  slots : Nat → Command
  head : Nat
  tail : Nat

/-- `SubQueue::new` (empty ring with all slots defaulted). -/
def subQueueNew (size : Nat) : SubQueue :=
  { size := size, slots := fun _ => cmdDefault, head := 0, tail := 0 }

/-- `SubQueue::try_push` (src/queues.rs:102-110): fail with `QueueFull`
when `head == (tail+1) % SIZE`; otherwise write the command to slot
`tail`, advance `tail`, and return the new tail. -/
def tryPush (q : SubQueue) (entry : Command) : Except NvmeError Nat × SubQueue :=
  if q.head = (q.tail + 1) % q.size then (.error .QueueFull, q)
  else
    let t := (q.tail + 1) % q.size
    (.ok t,
     { q with
       slots := fun j => if j = q.tail then entry else q.slots j
       tail := t })

/-- `SubQueue::push` (src/queues.rs:90-97) spins on `try_push`; modelled
as the immediately successful attempt, `none` standing for a spin that
has not yet returned. -/
def pushBlocking (q : SubQueue) (entry : Command) : Option (Nat × SubQueue) :=
  match tryPush q entry with
  | (.ok t, q1) => some (t, q1)
  | (.error _, _) => none

/-- An NVMe completion ring (src/queues.rs, `CompQueue`): slot array of
capacity `size`, consumer `head`, and the phase bit. -/
structure CompQueue where
  size : Nat
  slots : Nat → Completion
  head : Nat
  phase : Bool

/-- `CompQueue::new`: all slots zeroed, `head = 0`, `phase = true`. -/
def compQueueNew (size : Nat) : CompQueue :=
  { size := size, slots := fun _ => ⟨0, 0, 0, 0, 0⟩, head := 0, phase := true }

/-- `CompQueue::try_pop` (src/queues.rs:186-196): the slot at `head` is
valid iff its phase tag equals `phase`; on success advance `head`
modulo `size`, toggle `phase` when `head` wraps to 0, and return the new
head with the cloned entry. -/
def tryPop (q : CompQueue) : Option ((Nat × Completion) × CompQueue) :=
  let entry := q.slots q.head
  if entry.phaseBit = q.phase then
    let h := (q.head + 1) % q.size
    some ((h, entry),
          { q with head := h, phase := if h = 0 then !q.phase else q.phase })
  else none

/-- `CompQueue::pop` (src/queues.rs:160-167) spins on `try_pop`; modelled
as the immediately successful attempt, `none` standing for a spin that
has not yet returned. -/
def popBlocking (q : CompQueue) : Option ((Nat × Completion) × CompQueue) :=
  tryPop q

/-- `CompQueue::pop_n` (src/queues.rs:172-179): jump `head` forward by
`step - 1`, toggle `phase` when the jump reaches or passes slot `size`,
reduce `head` modulo `size`, then `pop()` the final entry. -/
def popN (q : CompQueue) (step : Nat) : Option ((Nat × Completion) × CompQueue) :=
  let h := q.head + (step - 1)
  popBlocking
    { q with
      head := h % q.size
      phase := if h ≥ q.size then !q.phase else q.phase }

/-- Doorbell registers (src/device.rs, `Doorbell`). -/
inductive Doorbell where
  | SubTail (qid : Nat)
  | CompHead (qid : Nat)
deriving DecidableEq, Repr

/-- Namespace descriptor (src/device.rs, `Namespace`). -/
structure NvmeNamespace where
  id : Nat
  block_count : Nat
  block_size : Nat
deriving DecidableEq, Repr

/-- State of an `IoQueuePair` (src/io.rs): queue id, namespace, both
rings, the PRP manager state, the MDTS bound, and the in-flight queue of
submitted `PrpResult`s. -/
structure IoQueuePairState where
  qid : Nat
  ns : NvmeNamespace
  subq : SubQueue
  compq : CompQueue
  prp : PrpManagerState
  max_transfer_size : Nat
  submitted : List PrpResult

/-- `IoQueuePair::submit_and_track` (src/io.rs:75-118).  Returns the
driver result, the new state, and the log of doorbell writes performed,
or `none` where the Rust code would panic (inside `PrpManager::create`).
The `blocks as u16 - 1` narrowing/wrapping of the block-count field is
made explicit. -/
def submitAndTrack (A : AllocatorModel) (qp : IoQueuePairState)
    (bytes lba address : Nat) (write : Bool) :
    Option (Except NvmeError Unit × IoQueuePairState × List (Doorbell × Nat)) :=
  if bytes > qp.max_transfer_size then some (.error .IoSizeExceedsMdts, qp, [])
  else if bytes % qp.ns.block_size ≠ 0 then some (.error .InvalidBufferSize, qp, [])
  else
    match prpCreate A qp.prp address bytes with
    | none => none
    | some (.error e, prp1) => some (.error e, { qp with prp := prp1 }, [])
    | some (.ok prpResult, prp1) =>
      let prp := prpResult.get_prp
      let blocks := bytes / qp.ns.block_size
      let command := Command.read_write (qp.subq.tail % 2 ^ 16) qp.ns.id lba
        ((blocks % 2 ^ 16 + (2 ^ 16 - 1)) % 2 ^ 16) (prp.1, prp.2) write
      match tryPush qp.subq command with
      | (.ok new_tail, subq1) =>
          some (.ok (),
                { qp with
                  subq := subq1
                  prp := prp1
                  submitted := qp.submitted ++ [prpResult] },
                [(Doorbell.SubTail qp.qid, new_tail)])
      | (.error err, _) =>
          some (.error err, { qp with prp := prpRelease prp1 prpResult }, [])

/-- `IoQueuePair::flush` (src/io.rs:127-150).  Returns the driver result,
the new state, and the doorbell writes performed; `none` stands for a
`pop` that has not yet observed a valid final entry. -/
def flush (qp : IoQueuePairState) :
    Option (Except NvmeError Unit × IoQueuePairState × List (Doorbell × Nat)) :=
  let numToComplete := qp.submitted.length
  if numToComplete = 0 then some (.ok (), qp, [])
  else
    match popN qp.compq numToComplete with
    | none => none
    | some ((tail, entry), compq1) =>
      let writes := [(Doorbell.CompHead qp.qid, tail)]
      let prp1 := qp.submitted.foldl prpRelease qp.prp
      let qp1 := { qp with compq := compq1, prp := prp1, submitted := [] }
      let status := entry.status / 2 % 256
      if status ≠ 0 then some (.error (.CommandFailed status), qp1, writes)
      else some (.ok (), { qp1 with subq := { qp1.subq with head := entry.sq_head } }, writes)

/-- CAP extraction in `Device::init` (src/device.rs:174):
`(cap >> 32) as u8 & 0xF`. -/
def capDoorbellStride (cap : Nat) : Nat := cap / 2 ^ 32 % 2 ^ 8 % 16

/-- CAP extraction in `Device::init` (src/device.rs:176):
`1 << (((cap >> 48) as u8 & 0xF) + 12)`. -/
def capMinPagesize (cap : Nat) : Nat := 2 ^ (cap / 2 ^ 48 % 2 ^ 8 % 16 + 12)

/-- CAP extraction in `Device::init` (src/device.rs:177):
`(cap & 0x7FFF) as u16 + 1`. -/
def capMaxQueueEntries (cap : Nat) : Nat := cap % 32768 + 1

/-- The admin-channel state of a `Device` (src/device.rs): the admin
submission and completion rings. -/
structure DeviceState where
  admin_sq : SubQueue
  admin_cq : CompQueue

/-- `Device::exec_admin` (src/device.rs:292-307): push the command
(blocking), ring the submission doorbell, pop a completion (blocking),
ring the completion doorbell, then fail with `CommandFailed` when
`(entry.status >> 1) & 0xff` is nonzero.  `none` stands for a blocking
push/pop that has not yet returned. -/
def execAdmin (dev : DeviceState) (cmd : Command) :
    Option (Except NvmeError Completion × DeviceState × List (Doorbell × Nat)) :=
  match pushBlocking dev.admin_sq cmd with
  | none => none
  | some (tail, sq1) =>
    match popBlocking dev.admin_cq with
    | none => none
    | some ((head, entry), cq1) =>
      let writes := [(Doorbell.SubTail 0, tail), (Doorbell.CompHead 0, head)]
      let dev1 : DeviceState := { admin_sq := sq1, admin_cq := cq1 }
      let status := entry.status / 2 % 256
      if status ≠ 0 then some (.error (.CommandFailed status), dev1, writes)
      else some (.ok entry, dev1, writes)

/-- Iterated `try_push` starting from a freshly created submission ring:
`pushIter N c k` is the ring after `k` push attempts of `c`. -/
def pushIter (N : Nat) (c : Command) : Nat → SubQueue
  | 0 => subQueueNew N
  | k + 1 => (tryPush (pushIter N c k) c).2

/-- Pages of a `PrpResult::List` outcome of `PrpManager::create`
(empty for every other outcome). -/
def prpPages (r : Option (Except NvmeError PrpResult × PrpManagerState)) : List PrpListPage :=
  match r with
  | some (.ok (.List _ pages), _) => pages
  | _ => []

/-- Whether `PrpManager::create` produced a `PrpResult::List`. -/
def prpIsList (r : Option (Except NvmeError PrpResult × PrpManagerState)) : Bool :=
  match r with
  | some (.ok (.List _ _), _) => true
  | _ => false

/-- Whether `Device::exec_admin` returned `Ok`. -/
def adminIsOk (r : Option (Except NvmeError Completion × DeviceState × List (Doorbell × Nat))) :
    Bool :=
  match r with
  | some (.ok _, _, _) => true
  | _ => false

/-- Whether `IoQueuePair::flush` returned `Err(CommandFailed(_))`. -/
def flushIsCommandFailed
    (r : Option (Except NvmeError Unit × IoQueuePairState × List (Doorbell × Nat))) : Bool :=
  match r with
  | some (.error (.CommandFailed _), _, _) => true
  | _ => false

/-- Submission-ring head in the state returned by `IoQueuePair::flush`. -/
def flushSubHead
    (r : Option (Except NvmeError Unit × IoQueuePairState × List (Doorbell × Nat))) : Nat :=
  match r with
  | some (_, qp, _) => qp.subq.head
  | none => 0

/-- An identity-translation allocator, used to instantiate theorems at
concrete inputs. -/
def idAlloc : AllocatorModel :=
  ⟨fun a => a, fun n => 2 ^ 20 + 4096 * n, fun _ _ => 0⟩

/-- An allocator whose translation is not affine across page 2
(`translate` jumps by an extra page at virtual address 8192), used to
separate per-page translation from single-base translation. -/
def cexAlloc : AllocatorModel :=
  ⟨fun a => if a < 8192 then a else a + 4096, fun n => 2 ^ 20 + 4096 * n, fun _ _ => 0⟩

/-- A fresh PRP manager state with the default pool capacity 32. -/
def prpSt0 : PrpManagerState := ⟨[], 32, 0⟩

/-- A concrete completion ring: 4 slots, all holding an entry with
`sq_head = 3` and status word 1 (phase tag set), `head = 3`, `phase = true`. -/
def cqFix : CompQueue :=
  { size := 4, slots := fun _ => ⟨0, 3, 0, 0, 1⟩, head := 3, phase := true }

/-- `cqFix` after one successful `try_pop`: head wrapped to 0, phase toggled. -/
def cqFixPost : CompQueue := { cqFix with head := 0, phase := false }

/-- A concrete I/O queue pair: queue id 1, block size 512, rings of size
8, MDTS bound 131072, completion entries carrying `sq_head = 5` and a
successful status word 1, nothing in flight. -/
def qpBase : IoQueuePairState :=
  { qid := 1
    ns := ⟨1, 1000, 512⟩
    subq := subQueueNew 8
    compq := { size := 8, slots := fun _ => ⟨0, 5, 0, 0, 1⟩, head := 0, phase := true }
    prp := prpSt0
    max_transfer_size := 131072
    submitted := [] }

/-- `qpBase` with one command in flight (its completion succeeds). -/
def qpOneOk : IoQueuePairState := { qpBase with submitted := [PrpResult.Single 42] }

/-- The state `flush` returns for `qpOneOk`: completion head advanced,
submission head updated to the completion's `sq_head`. -/
def qpOneOkPost : IoQueuePairState :=
  { qpBase with
    compq := { qpBase.compq with head := 1 }
    subq := { qpBase.subq with head := 5 } }

/-- `qpBase` with one command in flight whose completion reports a
failing status word 3 (phase tag set, status field 1). -/
def qpOneFail : IoQueuePairState :=
  { qpBase with
    compq := { qpBase.compq with slots := fun _ => ⟨0, 7, 0, 0, 3⟩ }
    submitted := [PrpResult.Single 42] }

/-- A concrete admin channel whose next completion carries status word
513 = 0x201: phase tag set and status-field bits 9..15 view nonzero, but
the low 8 bits of the status field zero. -/
def devHighBits : DeviceState :=
  { admin_sq := subQueueNew 64
    admin_cq := { size := 64, slots := fun _ => ⟨0, 7, 0, 0, 513⟩, head := 0, phase := true } }

/-- A concrete admin channel whose next completion carries the failing
status word 3 (phase tag set, status field 1). -/
def devFail : DeviceState :=
  { admin_sq := subQueueNew 64
    admin_cq := { size := 64, slots := fun _ => ⟨0, 7, 0, 0, 3⟩, head := 0, phase := true } }

/-- A concrete completion ring for exercising `pop_n`: size 4, head 2,
phase true, all slots holding `sq_head = 9` with a cleared phase tag. -/
def cqJump : CompQueue :=
  { size := 4, slots := fun _ => ⟨0, 9, 0, 0, 0⟩, head := 2, phase := true }

/-- `cqJump` after `pop_n(3)`: the jump crossed the ring boundary, so the
phase toggled; the final pop moved the head to 1. -/
def cqJumpPost : CompQueue := { cqJump with head := 1, phase := false }

/-- `qpBase` with one command in flight whose completion carries status
word 513 = 0x201: the status field has bits above its low 8 set, yet its
low 8 bits are zero. -/
def qpHighBits : IoQueuePairState :=
  { qpBase with
    compq := { qpBase.compq with slots := fun _ => ⟨0, 7, 0, 0, 513⟩ }
    submitted := [PrpResult.Single 42] }

/-- Whether `IoQueuePair::flush` returned `Ok`. -/
def flushIsOk
    (r : Option (Except NvmeError Unit × IoQueuePairState × List (Doorbell × Nat))) : Bool :=
  match r with
  | some (.ok _, _, _) => true
  | _ => false

theorem tryPop_isSome_iff (q : CompQueue) :
    (tryPop q).isSome ↔ (q.slots q.head).phaseBit = q.phase := by
  by_cases h : (q.slots q.head).phaseBit = q.phase <;> simp [tryPop, h]

theorem tryPop_eq_some (q : CompQueue) (h : Nat) (e : Completion) (q1 : CompQueue)
    (heq : tryPop q = some ((h, e), q1)) :
    e = q.slots q.head ∧ h = (q.head + 1) % q.size ∧ q1.head = h ∧
    q1.phase = (if h = 0 then !q.phase else q.phase) ∧
    q1.slots = q.slots ∧ q1.size = q.size := by
  by_cases hv : (q.slots q.head).phaseBit = q.phase
  · simp only [tryPop, hv, if_true, Option.some.injEq, Prod.mk.injEq] at heq
    obtain ⟨⟨h1, h2⟩, h3⟩ := heq
    subst h1; subst h2; subst h3
    refine ⟨rfl, rfl, rfl, rfl, rfl, rfl⟩
  · simp [tryPop, hv] at heq

theorem tryPush_full (q : SubQueue) (c : Command)
    (h : q.head = (q.tail + 1) % q.size) :
    tryPush q c = (.error .QueueFull, q) := by
  simp [tryPush, h]

theorem tryPush_ok (q : SubQueue) (c : Command)
    (h : q.head ≠ (q.tail + 1) % q.size) :
    tryPush q c =
      (.ok ((q.tail + 1) % q.size),
       { q with
         slots := fun j => if j = q.tail then c else q.slots j
         tail := (q.tail + 1) % q.size }) := by
  simp [tryPush, h]

theorem pushIter_state (N : Nat) (c : Command) (h2 : 2 ≤ N) :
    ∀ k, k ≤ N - 1 →
      (pushIter N c k).head = 0 ∧ (pushIter N c k).tail = k ∧ (pushIter N c k).size = N := by
  intro k
  induction k with
  | zero => intro _; exact ⟨rfl, rfl, rfl⟩
  | succ k ih =>
    intro hk
    obtain ⟨ih1, ih2, ih3⟩ := ih (by omega)
    have hne : (pushIter N c k).head ≠ ((pushIter N c k).tail + 1) % (pushIter N c k).size := by
      rw [ih1, ih2, ih3, Nat.mod_eq_of_lt (by omega)]
      omega
    have hstep : pushIter N c (k + 1) = (tryPush (pushIter N c k) c).2 := rfl
    rw [hstep, tryPush_ok _ _ hne]
    refine ⟨ih1, ?_, ih3⟩
    rw [ih2, ih3, Nat.mod_eq_of_lt (by omega)]

theorem writeSlots_lt (f : Nat → Nat) (prp2 k : Nat) :
    ∀ n j, j < n → writeSlots f prp2 k n j = prp2 + (k * 511 + j) * 4096 := by
  intro n
  induction n with
  | zero => intro j hj; exact absurd hj (Nat.not_lt_zero j)
  | succ n ih =>
    intro j hj
    by_cases hjn : j = n
    · subst hjn; simp [writeSlots]
    · simp only [writeSlots, hjn, if_false]
      exact ih j (by omega)

theorem buildLists_length (A : AllocatorModel) (prp2 rem L : Nat) :
    ∀ n idx st, (buildLists A prp2 rem L n idx st).1.length = n := by
  intro n
  induction n with
  | zero => intro idx st; rfl
  | succ n ih =>
    intro idx st
    simp only [buildLists, List.length_cons]
    rw [ih]

theorem buildLists_getD (A : AllocatorModel) (prp2 rem L : Nat) :
    ∀ n idx st j, j < n →
      ∃ f, ((buildLists A prp2 rem L n idx st).1.getD j default).entry
        = writeSlots f prp2 (idx + j)
            (if idx + j = L - 1 then rem - (idx + j) * 511 else 511) := by
  intro n
  induction n with
  | zero => intro idx st j hj; exact absurd hj (Nat.not_lt_zero j)
  | succ n ih =>
    intro idx st j hj
    cases j with
    | zero =>
      refine ⟨(popPage A st).1.entry, ?_⟩
      simp [buildLists]
    | succ j =>
      obtain ⟨f, hf⟩ := ih (idx + 1) (popPage A st).2 j (by omega)
      refine ⟨f, ?_⟩
      have harith : idx + (j + 1) = idx + 1 + j := by omega
      simp only [buildLists, List.getD_cons_succ]
      rw [harith]
      exact hf

theorem chainLists_length : ∀ l : List PrpListPage, (chainLists l).length = l.length := by
  intro l
  induction l with
  | nil => rfl
  | cons p tl ih =>
    cases tl with
    | nil => rfl
    | cons q rest =>
      simp only [chainLists, List.length_cons] at ih ⊢
      rw [ih]

theorem chainLists_getD_phys : ∀ (l : List PrpListPage) (k : Nat),
    ((chainLists l).getD k default).phys_addr = (l.getD k default).phys_addr := by
  intro l
  induction l with
  | nil => intro k; rfl
  | cons p tl ih =>
    intro k
    cases tl with
    | nil =>
      cases k with
      | zero => rfl
      | succ k => rfl
    | cons q rest =>
      cases k with
      | zero => rfl
      | succ k => simpa [chainLists] using ih k

theorem chainLists_getD_entry_mid : ∀ (l : List PrpListPage) (k : Nat), k + 1 < l.length →
    ((chainLists l).getD k default).entry
      = fun j => if j = 511 then (l.getD (k + 1) default).phys_addr
                 else (l.getD k default).entry j := by
  intro l
  induction l with
  | nil => intro k hk; simp at hk
  | cons p tl ih =>
    intro k hk
    cases tl with
    | nil => simp at hk
    | cons q rest =>
      cases k with
      | zero => rfl
      | succ k =>
        have hk1 : k + 1 < (q :: rest).length := by
          simpa using Nat.lt_of_succ_lt_succ hk
        simpa [chainLists] using ih k hk1

theorem chainLists_getD_entry_last : ∀ (l : List PrpListPage) (k : Nat), k + 1 = l.length →
    ((chainLists l).getD k default).entry = (l.getD k default).entry := by
  intro l
  induction l with
  | nil => intro k hk; simp at hk
  | cons p tl ih =>
    intro k hk
    cases tl with
    | nil =>
      cases k with
      | zero => rfl
      | succ k => simp at hk
    | cons q rest =>
      cases k with
      | zero => simp at hk
      | succ k =>
        have hk1 : k + 1 = (q :: rest).length := by
          simpa using hk
        simpa [chainLists] using ih k hk1

/-- C2 (amended): `Device::init` extracts from CAP the doorbell stride as
bits [35:32], the minimum page size as `2^(12 + bits[51:48])`, and the
maximum queue entry count as bits [14:0] plus one (the code masks MQES
with `0x7FFF`, not the full 16-bit field). -/
theorem C2_cap_extraction_amended (cap : Nat) :
    capDoorbellStride cap = cap / 2 ^ 32 % 2 ^ 4 ∧
    capMinPagesize cap = 2 ^ (12 + cap / 2 ^ 48 % 2 ^ 4) ∧
    capMaxQueueEntries cap = cap % 2 ^ 15 + 1 := by
  refine ⟨?_, ?_, ?_⟩
  · show cap / 2 ^ 32 % 2 ^ 8 % 16 = cap / 2 ^ 32 % 2 ^ 4
    rw [Nat.mod_mod_of_dvd _ (by norm_num : (16 : ℕ) ∣ 2 ^ 8)]
    norm_num
  · show 2 ^ (cap / 2 ^ 48 % 2 ^ 8 % 16 + 12) = 2 ^ (12 + cap / 2 ^ 48 % 2 ^ 4)
    rw [Nat.mod_mod_of_dvd _ (by norm_num : (16 : ℕ) ∣ 2 ^ 8)]
    norm_num [Nat.add_comm]
  · show cap % 32768 + 1 = cap % 2 ^ 15 + 1
    norm_num

/-- C2 (counterexample): at CAP = 0x8000 — a representable 64-bit value —
the code computes `max_queue_entries = 1`, while `bits[15:0] + 1 = 32769`
as the claim states. -/
theorem C2_mqes_mask_counterexample :
    32768 < 2 ^ 64 ∧ capMaxQueueEntries 32768 = 1 ∧
    32768 % 2 ^ 16 + 1 = 32769 ∧ (1 : Nat) ≠ 32769 := by decide

/-- C3: `try_pop` returns an entry iff the slot at `head` carries a phase
tag equal to `phase`; on success the returned entry is the slot at the
old head, the head advances by one modulo the ring size, the phase
toggles exactly when the head wraps to 0, and the slot array and size
are unchanged (on failure `try_pop` returns `none` and performs no state
change). -/
theorem C3_try_pop_phase_rule (q : CompQueue) :
    ((tryPop q).isSome ↔ (q.slots q.head).phaseBit = q.phase) ∧
    (∀ h e q1, tryPop q = some ((h, e), q1) →
      e = q.slots q.head ∧
      h = (q.head + 1) % q.size ∧
      q1.head = (q.head + 1) % q.size ∧
      q1.phase = (if (q.head + 1) % q.size = 0 then !q.phase else q.phase) ∧
      q1.slots = q.slots ∧ q1.size = q.size) :=
  ⟨tryPop_isSome_iff q, fun h e q1 heq => by
    obtain ⟨a, b, c, d, f, g⟩ := tryPop_eq_some q h e q1 heq
    subst b
    exact ⟨a, rfl, c, d, f, g⟩⟩

/-- C3 (witness): instantiated on a concrete ring of size 4 at head 3
with a phase-valid slot; the pop wraps the head to 0 and toggles the
phase. -/
theorem C3_try_pop_phase_rule_witness :
    (⟨0, 3, 0, 0, 1⟩ : Completion) = cqFix.slots cqFix.head ∧
    (0 : Nat) = (cqFix.head + 1) % cqFix.size ∧
    cqFixPost.head = (cqFix.head + 1) % cqFix.size ∧
    cqFixPost.phase = (if (cqFix.head + 1) % cqFix.size = 0 then !cqFix.phase else cqFix.phase) ∧
    cqFixPost.slots = cqFix.slots ∧ cqFixPost.size = cqFix.size :=
  (C3_try_pop_phase_rule cqFix).2 0 ⟨0, 3, 0, 0, 1⟩ cqFixPost rfl

/-- C4: `try_push` fails with `QueueFull` iff `head = (tail + 1) % size`
(leaving the ring unchanged); otherwise it writes the command into slot
`tail`, leaves all other slots alone, advances the tail modulo the size,
and returns the new tail; it never modifies `head`; and from an empty
ring of size `N ≥ 2` exactly the first `N - 1` pushes succeed. -/
theorem C4_try_push_full_rule (q : SubQueue) (c : Command) (N : Nat) :
    ((tryPush q c).1 = .error .QueueFull ↔ q.head = (q.tail + 1) % q.size) ∧
    ((tryPush q c).2.head = q.head) ∧
    (q.head = (q.tail + 1) % q.size → (tryPush q c).2 = q) ∧
    (q.head ≠ (q.tail + 1) % q.size →
      (tryPush q c).1 = .ok ((q.tail + 1) % q.size) ∧
      (tryPush q c).2.tail = (q.tail + 1) % q.size ∧
      (tryPush q c).2.slots q.tail = c ∧
      ∀ j, j ≠ q.tail → (tryPush q c).2.slots j = q.slots j) ∧
    (2 ≤ N →
      (∀ j, j < N - 1 → (tryPush (pushIter N c j) c).1 = .ok (j + 1)) ∧
      (tryPush (pushIter N c (N - 1)) c).1 = .error .QueueFull) := by
  refine ⟨?_, ?_, ?_, ?_, ?_⟩
  · constructor
    · intro h1
      by_contra hne
      rw [tryPush_ok q c hne] at h1
      simp at h1
    · intro hf
      rw [tryPush_full q c hf]
  · by_cases hf : q.head = (q.tail + 1) % q.size
    · rw [tryPush_full q c hf]
    · rw [tryPush_ok q c hf]
  · intro hf
    rw [tryPush_full q c hf]
  · intro hne
    rw [tryPush_ok q c hne]
    exact ⟨rfl, rfl, by simp, fun j hj => by simp [hj]⟩
  · intro hN
    constructor
    · intro j hj
      obtain ⟨h1, h2, h3⟩ := pushIter_state N c hN j (by omega)
      have hne : (pushIter N c j).head ≠ ((pushIter N c j).tail + 1) % (pushIter N c j).size := by
        rw [h1, h2, h3, Nat.mod_eq_of_lt (by omega)]
        omega
      rw [tryPush_ok _ _ hne, h2, h3, Nat.mod_eq_of_lt (by omega)]
    · obtain ⟨h1, h2, h3⟩ := pushIter_state N c hN (N - 1) (le_refl _)
      have hfull : (pushIter N c (N - 1)).head
          = ((pushIter N c (N - 1)).tail + 1) % (pushIter N c (N - 1)).size := by
        rw [h1, h2, h3]
        have hsub : N - 1 + 1 = N := by omega
        rw [hsub, Nat.mod_self]
      rw [tryPush_full _ _ hfull]

/-- C4 (witness): on a fresh ring of size 4, the first push succeeds
returning tail 1, and the fourth push attempt fails with `QueueFull`. -/
theorem C4_try_push_full_rule_witness :
    (tryPush (pushIter 4 cmdDefault 0) cmdDefault).1 = .ok 1 ∧
    (tryPush (pushIter 4 cmdDefault 3) cmdDefault).1 = .error .QueueFull :=
  ⟨((C4_try_push_full_rule (subQueueNew 4) cmdDefault 4).2.2.2.2 (by norm_num)).1 0 (by norm_num),
   ((C4_try_push_full_rule (subQueueNew 4) cmdDefault 4).2.2.2.2 (by norm_num)).2⟩

/-- C5: `PrpManager::create` returns `NotAlignedToDword` whenever the
address is not 4-byte aligned; `Single(translate(address))` when the
address is dword-aligned and the page count is 1; `NotAlignedToPage`
when the address is dword-aligned, the count is at least 2, and the
address is not page-aligned; and
`Double(translate(address), translate(address + 4096))` when the address
is page-aligned and the count is 2 — in every case leaving the manager
state unchanged. -/
theorem C5_prp_small_cases (A : AllocatorModel) (st : PrpManagerState) (address bytes : Nat) :
    (address % 4 ≠ 0 →
      prpCreate A st address bytes = some (.error .NotAlignedToDword, st)) ∧
    (address % 4 = 0 → divCeil (address % 4096 + bytes) 4096 = 1 →
      prpCreate A st address bytes = some (.ok (.Single (A.translate address)), st)) ∧
    (address % 4 = 0 → 2 ≤ divCeil (address % 4096 + bytes) 4096 → address % 4096 ≠ 0 →
      prpCreate A st address bytes = some (.error .NotAlignedToPage, st)) ∧
    (address % 4096 = 0 → divCeil (address % 4096 + bytes) 4096 = 2 →
      prpCreate A st address bytes =
        some (.ok (.Double (A.translate address) (A.translate (address + 4096))), st)) := by
  refine ⟨?_, ?_, ?_, ?_⟩
  · intro h
    simp [prpCreate, h]
  · intro h4 h1
    simp [prpCreate, h4, h1]
  · intro h4 h2 hp
    have h1 : ¬(divCeil (address % 4096 + bytes) 4096 = 1) := by omega
    simp [prpCreate, h4, h1, hp]
  · intro hp h2
    have h4 : address % 4 = 0 := by
      rw [← Nat.mod_mod_of_dvd address (by norm_num : (4 : ℕ) ∣ 4096), hp]
    have h1 : ¬(divCeil (address % 4096 + bytes) 4096 = 1) := by omega
    rw [hp, Nat.zero_add] at h1 h2
    simp [prpCreate, h4, h1, hp, h2]

/-- C5 (witness): the four cases instantiated concretely — an unaligned
address 2, a one-page transfer at 4096, an 8 KiB transfer at the
dword-only-aligned address 4, and an 8 KiB transfer at 0. -/
theorem C5_prp_small_cases_witness :
    prpCreate idAlloc prpSt0 2 4096 = some (.error .NotAlignedToDword, prpSt0) ∧
    prpCreate idAlloc prpSt0 4096 4096 = some (.ok (.Single (idAlloc.translate 4096)), prpSt0) ∧
    prpCreate idAlloc prpSt0 4 8192 = some (.error .NotAlignedToPage, prpSt0) ∧
    prpCreate idAlloc prpSt0 0 8192 =
      some (.ok (.Double (idAlloc.translate 0) (idAlloc.translate 4096)), prpSt0) :=
  ⟨(C5_prp_small_cases idAlloc prpSt0 2 4096).1 (by decide),
   (C5_prp_small_cases idAlloc prpSt0 4096 4096).2.1 (by decide) (by decide),
   (C5_prp_small_cases idAlloc prpSt0 4 8192).2.2.1 (by decide) (by decide) (by decide),
   (C5_prp_small_cases idAlloc prpSt0 0 8192).2.2.2 (by decide) (by decide)⟩

/-- C10: when nothing is in flight, `flush` returns `Ok(())` at once with
the whole queue-pair state unchanged and no doorbell written (so the
`step - 1` jump of `pop_n` is never reached). -/
theorem C10_flush_empty (qp : IoQueuePairState) (h : qp.submitted = []) :
    flush qp = some (.ok (), qp, []) := by
  simp [flush, h]

/-- C10 (witness): instantiated on the concrete idle queue pair. -/
theorem C10_flush_empty_witness : flush qpBase = some (.ok (), qpBase, []) :=
  C10_flush_empty qpBase rfl

/-- C9: for `step ≥ 1`, `pop_n(step)` jumps the head forward by
`step - 1` slots, toggles the phase exactly once when the jump reaches
or passes slot `size`, and pops the final entry under the usual
phase-tag rule, returning the final head position and that entry. -/
theorem C9_pop_n_jump (q : CompQueue) (step : Nat) (_hstep : 1 ≤ step) :
    ((popN q step).isSome ↔
      (q.slots ((q.head + (step - 1)) % q.size)).phaseBit
        = (if q.size ≤ q.head + (step - 1) then !q.phase else q.phase)) ∧
    (∀ hd e q1, popN q step = some ((hd, e), q1) →
      e = q.slots ((q.head + (step - 1)) % q.size) ∧
      hd = ((q.head + (step - 1)) % q.size + 1) % q.size ∧
      q1.head = hd ∧
      q1.phase = (if hd = 0
                  then !(if q.size ≤ q.head + (step - 1) then !q.phase else q.phase)
                  else (if q.size ≤ q.head + (step - 1) then !q.phase else q.phase)) ∧
      q1.slots = q.slots ∧ q1.size = q.size) := by
  have hpop : popN q step = tryPop
      { q with
        head := (q.head + (step - 1)) % q.size
        phase := if q.size ≤ q.head + (step - 1) then !q.phase else q.phase } := rfl
  constructor
  · rw [hpop]
    exact tryPop_isSome_iff _
  · intro hd e q1 heq
    rw [hpop] at heq
    obtain ⟨a, b, c, d, f, g⟩ := tryPop_eq_some _ hd e q1 heq
    subst b
    exact ⟨a, rfl, c, d, f, g⟩

/-- C9 (witness): on a ring of size 4 at head 2, `pop_n(3)` jumps past
the boundary (toggling the phase), pops the entry at slot 0, and returns
head 1. -/
theorem C9_pop_n_jump_witness :
    (⟨0, 9, 0, 0, 0⟩ : Completion) = cqJump.slots ((cqJump.head + (3 - 1)) % cqJump.size) ∧
    (1 : Nat) = ((cqJump.head + (3 - 1)) % cqJump.size + 1) % cqJump.size ∧
    cqJumpPost.head = 1 ∧
    cqJumpPost.slots = cqJump.slots ∧ cqJumpPost.size = cqJump.size :=
  have h := (C9_pop_n_jump cqJump 3 (by norm_num)).2 1 ⟨0, 9, 0, 0, 0⟩ cqJumpPost rfl
  ⟨h.1, h.2.1, h.2.2.1, h.2.2.2.2.1, h.2.2.2.2.2⟩

/-- C8: `read`/`write` submission returns `IoSizeExceedsMdts` when the
byte count exceeds the MDTS bound and `InvalidBufferSize` when it is not
a multiple of the block size; and on every error outcome (including PRP
alignment errors and `QueueFull`) no submission slot is written, the
tail and head are unchanged, no doorbell is written, and the in-flight
queue is unchanged. -/
theorem C8_submit_error_frame (A : AllocatorModel) (qp : IoQueuePairState)
    (bytes lba address : Nat) (w : Bool) :
    (qp.max_transfer_size < bytes →
      submitAndTrack A qp bytes lba address w = some (.error .IoSizeExceedsMdts, qp, [])) ∧
    (bytes ≤ qp.max_transfer_size → bytes % qp.ns.block_size ≠ 0 →
      submitAndTrack A qp bytes lba address w = some (.error .InvalidBufferSize, qp, [])) ∧
    (∀ res qp1 writes, submitAndTrack A qp bytes lba address w = some (res, qp1, writes) →
      (∃ err, res = .error err) →
      qp1.subq.slots = qp.subq.slots ∧ qp1.subq.tail = qp.subq.tail ∧
      qp1.subq.head = qp.subq.head ∧ qp1.submitted = qp.submitted ∧ writes = []) := by
  refine ⟨?_, ?_, ?_⟩
  · intro h
    simp [submitAndTrack, h]
  · intro hle hmod
    have h1 : ¬(qp.max_transfer_size < bytes) := not_lt.mpr hle
    simp [submitAndTrack, h1, hmod]
  · intro res qp1 writes heq hres
    obtain ⟨err, rfl⟩ := hres
    unfold submitAndTrack at heq
    split at heq
    · simp only [Option.some.injEq, Prod.mk.injEq] at heq
      obtain ⟨-, h2, h3⟩ := heq
      subst h2
      subst h3
      exact ⟨rfl, rfl, rfl, rfl, rfl⟩
    · split at heq
      · simp only [Option.some.injEq, Prod.mk.injEq] at heq
        obtain ⟨-, h2, h3⟩ := heq
        subst h2
        subst h3
        exact ⟨rfl, rfl, rfl, rfl, rfl⟩
      · split at heq
        · exact absurd heq (by simp)
        · simp only [Option.some.injEq, Prod.mk.injEq] at heq
          obtain ⟨-, h2, h3⟩ := heq
          subst h2
          subst h3
          exact ⟨rfl, rfl, rfl, rfl, rfl⟩
        · dsimp only at heq
          split at heq
          · simp at heq
          · simp only [Option.some.injEq, Prod.mk.injEq] at heq
            obtain ⟨-, h2, h3⟩ := heq
            subst h2
            subst h3
            exact ⟨rfl, rfl, rfl, rfl, rfl⟩

/-- C8 (witness): with MDTS bound 131072, submitting 131073 bytes fails
with `IoSizeExceedsMdts` and changes nothing. -/
theorem C8_submit_error_frame_witness :
    submitAndTrack idAlloc qpBase 131073 0 4096 false =
      some (.error .IoSizeExceedsMdts, qpBase, []) :=
  (C8_submit_error_frame idAlloc qpBase 131073 0 4096 false).1 (by norm_num [qpBase])

/-- C6 (amended): `exec_admin` and `flush` report `CommandFailed` exactly
when the low 8 bits of the status field of the consumed completion —
`(status >> 1) & 0xff` — are nonzero, carrying exactly that masked
value; when the masked field is zero they succeed (status-field bits
9..15 are not examined). -/
theorem C6_command_failed_masked (dev : DeviceState) (cmd : Command) (qp : IoQueuePairState) :
    (∀ res dev1 writes, execAdmin dev cmd = some (res, dev1, writes) →
      ((dev.admin_cq.slots dev.admin_cq.head).status / 2 % 256 ≠ 0 →
        res = .error (.CommandFailed ((dev.admin_cq.slots dev.admin_cq.head).status / 2 % 256))) ∧
      ((dev.admin_cq.slots dev.admin_cq.head).status / 2 % 256 = 0 →
        res = .ok (dev.admin_cq.slots dev.admin_cq.head))) ∧
    (∀ res qp1 writes t e cq1, flush qp = some (res, qp1, writes) →
      qp.submitted ≠ [] →
      popN qp.compq qp.submitted.length = some ((t, e), cq1) →
      (e.status / 2 % 256 ≠ 0 → res = .error (.CommandFailed (e.status / 2 % 256))) ∧
      (e.status / 2 % 256 = 0 → res = .ok ())) := by
  constructor
  · intro res dev1 writes heq
    unfold execAdmin at heq
    rcases hpb : pushBlocking dev.admin_sq cmd with _ | ⟨tail, sq1⟩
    · rw [hpb] at heq
      simp at heq
    · rw [hpb] at heq
      rcases hpp : popBlocking dev.admin_cq with _ | ⟨⟨hd, e⟩, cq1⟩
      · rw [hpp] at heq
        simp at heq
      · rw [hpp] at heq
        obtain ⟨he, -, -, -, -, -⟩ := tryPop_eq_some dev.admin_cq hd e cq1 hpp
        subst he
        by_cases hs : (dev.admin_cq.slots dev.admin_cq.head).status / 2 % 256 = 0
        · simp only [hs, ne_eq, not_true_eq_false, if_false, ite_false,
            Option.some.injEq, Prod.mk.injEq] at heq
          obtain ⟨h1, -, -⟩ := heq
          exact ⟨fun hc => absurd hs hc, fun _ => h1.symm⟩
        · simp only [hs, ne_eq, not_false_eq_true, if_true, ite_true,
            Option.some.injEq, Prod.mk.injEq] at heq
          obtain ⟨h1, -, -⟩ := heq
          exact ⟨fun _ => h1.symm, fun hz => absurd hz hs⟩
  · intro res qp1 writes t e cq1 heq hne hpop
    unfold flush at heq
    have hlen : ¬(qp.submitted.length = 0) := by
      simpa [List.length_eq_zero] using hne
    rw [if_neg hlen, hpop] at heq
    by_cases hs : e.status / 2 % 256 = 0
    · simp only [hs, ne_eq, not_true_eq_false, if_false, ite_false,
        Option.some.injEq, Prod.mk.injEq] at heq
      obtain ⟨h1, -, -⟩ := heq
      exact ⟨fun hc => absurd hs hc, fun _ => h1.symm⟩
    · simp only [hs, ne_eq, not_false_eq_true, if_true, ite_true,
        Option.some.injEq, Prod.mk.injEq] at heq
      obtain ⟨h1, -, -⟩ := heq
      exact ⟨fun _ => h1.symm, fun hz => absurd hz hs⟩

/-- C6 (witness): a completion with status word 3 (status field 1) makes
`exec_admin` report failure and `flush` report `CommandFailed`. -/
theorem C6_command_failed_masked_witness :
    adminIsOk (execAdmin devFail cmdDefault) = false ∧
    flushIsCommandFailed (flush qpOneFail) = true := by
  constructor
  · rcases hexec : execAdmin devFail cmdDefault with _ | ⟨res, dev1, writes⟩
    · rfl
    · have h := ((C6_command_failed_masked devFail cmdDefault qpOneFail).1
        res dev1 writes hexec).1 (by decide)
      rw [h]
      rfl
  · rcases hfl : flush qpOneFail with _ | ⟨res, qp1, writes⟩
    · have hs : (flush qpOneFail).isSome = true := by decide
      rw [hfl] at hs
      simp at hs
    · have h := ((C6_command_failed_masked devFail cmdDefault qpOneFail).2
        res qp1 writes 1 ⟨0, 7, 0, 0, 3⟩ { qpOneFail.compq with head := 1 }
        hfl (by simp [qpOneFail, qpBase]) rfl).1 (by decide)
      rw [h]
      rfl

/-- C6 (counterexample): a completion with status word 0x201 has a
nonzero status field (bits 1..15 hold 0x100), yet `exec_admin` reports
success and `flush` does not report `CommandFailed`, because the code
masks the field to 8 bits before the zero test. -/
theorem C6_status_high_bits_counterexample :
    (devHighBits.admin_cq.slots devHighBits.admin_cq.head).status / 2 % 2 ^ 15 = 256 ∧
    (256 : Nat) ≠ 0 ∧
    adminIsOk (execAdmin devHighBits cmdDefault) = true ∧
    flushIsCommandFailed (flush qpHighBits) = false ∧
    flushIsOk (flush qpHighBits) = true := by decide

/-- C7 (amended): when `flush` consumes a completion entry, it updates
the submission queue's head from the completion's `sq_head` field only
when the status field is zero; on a nonzero status it returns
`CommandFailed` and leaves the submission head unchanged, while still
advancing the completion queue, writing the completion doorbell, and
clearing the in-flight queue. -/
theorem C7_flush_head_on_success (qp : IoQueuePairState) :
    ∀ res qp1 writes t e cq1,
      flush qp = some (res, qp1, writes) →
      qp.submitted ≠ [] →
      popN qp.compq qp.submitted.length = some ((t, e), cq1) →
      qp1.subq.tail = qp.subq.tail ∧
      qp1.compq = cq1 ∧
      qp1.submitted = [] ∧
      writes = [(Doorbell.CompHead qp.qid, t)] ∧
      (e.status / 2 % 256 = 0 → res = .ok () ∧ qp1.subq.head = e.sq_head) ∧
      (e.status / 2 % 256 ≠ 0 →
        res = .error (.CommandFailed (e.status / 2 % 256)) ∧
        qp1.subq.head = qp.subq.head) := by
  intro res qp1 writes t e cq1 heq hne hpop
  unfold flush at heq
  have hlen : ¬(qp.submitted.length = 0) := by
    simpa [List.length_eq_zero] using hne
  rw [if_neg hlen, hpop] at heq
  by_cases hs : e.status / 2 % 256 = 0
  · simp only [hs, ne_eq, not_true_eq_false, if_false, ite_false,
      Option.some.injEq, Prod.mk.injEq] at heq
    obtain ⟨h1, h2, h3⟩ := heq
    subst h2
    subst h3
    exact ⟨rfl, rfl, rfl, rfl, fun _ => ⟨h1.symm, rfl⟩, fun hc => absurd hs hc⟩
  · simp only [hs, ne_eq, not_false_eq_true, if_true, ite_true,
      Option.some.injEq, Prod.mk.injEq] at heq
    obtain ⟨h1, h2, h3⟩ := heq
    subst h2
    subst h3
    exact ⟨rfl, rfl, rfl, rfl, fun hz => absurd hz hs, fun _ => ⟨h1.symm, rfl⟩⟩

/-- C7 (witness): a successful flush of one in-flight command updates the
submission head to the completion's `sq_head` value 5. -/
theorem C7_flush_head_on_success_witness : flushSubHead (flush qpOneOk) = 5 := by
  rcases hfl : flush qpOneOk with _ | ⟨res, qp1, writes⟩
  · have hs : (flush qpOneOk).isSome = true := by decide
    rw [hfl] at hs
    simp at hs
  · have h := C7_flush_head_on_success qpOneOk res qp1 writes 1 ⟨0, 5, 0, 0, 1⟩
      { qpOneOk.compq with head := 1 } hfl (by simp [qpOneOk, qpBase]) rfl
    have h5 := (h.2.2.2.2.1 (by decide)).2
    exact h5

/-- C7 (counterexample): on a failing completion (status word 3,
`sq_head = 7`), `flush` returns `CommandFailed` but leaves the
submission head at 0 instead of updating it to 7 — the head is not
updated on failure as the claim states. -/
theorem C7_flush_head_counterexample :
    flushIsCommandFailed (flush qpOneFail) = true ∧
    (qpOneFail.compq.slots 0).sq_head = 7 ∧
    flushSubHead (flush qpOneFail) = 0 ∧
    qpOneFail.subq.head = 0 ∧ (0 : Nat) ≠ 7 := by decide

/-- C1 (amended): for a page-aligned transfer spanning
`count = ceil((address mod 4096 + bytes)/4096) > 2` pages,
`PrpManager::create` returns `List(translate(address), pages)` with
`ceil((count-1-1)/511)` list pages; payload slot `i` of list `k` holds
`translate(address + 4096) + 4096*(k*511 + i)` (the physical offset is
added after a single translation of the second page, not re-translated
per page); and slot 511 of every non-final list holds the physical
address of the next list. -/
theorem chainBuild_spec (A : AllocatorModel) (prp2 rem L : Nat) (st : PrpManagerState) :
    (chainLists (buildLists A prp2 rem L L 0 st).1).length = L ∧
    (∀ k i, k < L →
      i < (if k = L - 1 then rem - k * 511 else 511) →
      ((chainLists (buildLists A prp2 rem L L 0 st).1).getD k default).entry i
        = prp2 + (k * 511 + i) * 4096) ∧
    (∀ k, k + 1 < L →
      ((chainLists (buildLists A prp2 rem L L 0 st).1).getD k default).entry 511
        = ((chainLists (buildLists A prp2 rem L L 0 st).1).getD (k + 1) default).phys_addr) := by
  refine ⟨?_, ?_, ?_⟩
  · rw [chainLists_length, buildLists_length]
  · intro k i hk hi
    obtain ⟨f, hf⟩ := buildLists_getD A prp2 rem L L 0 st k hk
    rw [Nat.zero_add] at hf
    rcases Nat.lt_or_ge (k + 1) L with hmid | hlast
    · have hknot : ¬(k = L - 1) := by omega
      rw [if_neg hknot] at hf hi
      rw [chainLists_getD_entry_mid _ k (by rw [buildLists_length]; exact hmid)]
      have hi511 : ¬(i = 511) := by omega
      simp only [hi511, if_false]
      rw [hf]
      exact writeSlots_lt f prp2 k 511 i hi
    · have hklast : k + 1 = L := by omega
      have hkeq : k = L - 1 := by omega
      rw [if_pos hkeq] at hf hi
      rw [chainLists_getD_entry_last _ k (by rw [buildLists_length]; exact hklast), hf]
      exact writeSlots_lt f prp2 k _ i hi
  · intro k hk
    rw [chainLists_getD_entry_mid _ k (by rw [buildLists_length]; exact hk),
      chainLists_getD_phys]
    simp

theorem C1_prp_list_payload_and_chain (A : AllocatorModel) (st : PrpManagerState)
    (address bytes : Nat)
    (hal : address % 4096 = 0)
    (hcount : 2 < divCeil (address % 4096 + bytes) 4096) :
    ∃ st1 pages,
      prpCreate A st address bytes
        = some (.ok (.List (A.translate address) pages), st1) ∧
      pages.length = divCeil (divCeil (address % 4096 + bytes) 4096 - 1 - 1) 511 ∧
      (∀ k i, k < pages.length →
        i < (if k = pages.length - 1
             then divCeil (address % 4096 + bytes) 4096 - 1 - k * 511
             else 511) →
        (pages.getD k default).entry i
          = A.translate (address + 4096) + (k * 511 + i) * 4096) ∧
      (∀ k, k + 1 < pages.length →
        (pages.getD k default).entry 511 = (pages.getD (k + 1) default).phys_addr) := by
  have h4 : address % 4 = 0 := by
    rw [← Nat.mod_mod_of_dvd address (by norm_num : (4 : ℕ) ∣ 4096), hal]
  have h1 : ¬(divCeil (address % 4096 + bytes) 4096 = 1) := by omega
  have h2 : ¬(divCeil (address % 4096 + bytes) 4096 = 2) := by omega
  have h0 : ¬(divCeil (address % 4096 + bytes) 4096 = 0) := by omega
  obtain ⟨hlen, hpay, hchain⟩ := chainBuild_spec A (A.translate (address + 4096))
    (divCeil (address % 4096 + bytes) 4096 - 1)
    (divCeil (divCeil (address % 4096 + bytes) 4096 - 1 - 1) 511) st
  refine ⟨(buildLists A (A.translate (address + 4096))
      (divCeil (address % 4096 + bytes) 4096 - 1)
      (divCeil (divCeil (address % 4096 + bytes) 4096 - 1 - 1) 511)
      (divCeil (divCeil (address % 4096 + bytes) 4096 - 1 - 1) 511) 0 st).2,
    chainLists (buildLists A (A.translate (address + 4096))
      (divCeil (address % 4096 + bytes) 4096 - 1)
      (divCeil (divCeil (address % 4096 + bytes) 4096 - 1 - 1) 511)
      (divCeil (divCeil (address % 4096 + bytes) 4096 - 1 - 1) 511) 0 st).1,
    ?_, hlen, ?_, ?_⟩
  · simp only [prpCreate]
    rw [if_neg (not_ne_iff.mpr h4), if_neg h1, if_neg (not_ne_iff.mpr hal), if_neg h2,
      if_neg h0]
  · intro k i hk hi
    rw [hlen] at hk hi
    exact hpay k i hk hi
  · intro k hk
    rw [hlen] at hk
    exact hchain k hk

/-- C1 (witness): instantiated at the identity-translation allocator
with a 3-page transfer at address 0; the list layout follows the amended
per-slot formula. -/
theorem C1_prp_list_payload_and_chain_witness :
    (0 : Nat) % 4096 = 0 ∧ 2 < divCeil (0 % 4096 + 12288) 4096 ∧
    ∃ st1 pages,
      prpCreate idAlloc prpSt0 0 12288
        = some (.ok (.List (idAlloc.translate 0) pages), st1) ∧
      pages.length = divCeil (divCeil (0 % 4096 + 12288) 4096 - 1 - 1) 511 ∧
      (∀ k i, k < pages.length →
        i < (if k = pages.length - 1
             then divCeil (0 % 4096 + 12288) 4096 - 1 - k * 511
             else 511) →
        (pages.getD k default).entry i
          = idAlloc.translate (0 + 4096) + (k * 511 + i) * 4096) ∧
      (∀ k, k + 1 < pages.length →
        (pages.getD k default).entry 511 = (pages.getD (k + 1) default).phys_addr) :=
  ⟨by decide, by decide,
   C1_prp_list_payload_and_chain idAlloc prpSt0 0 12288 (by decide) (by decide)⟩

/-- C1 (counterexample): with a non-affine translation, a 3-page
transfer at address 0 passes the alignment checks and yields one list
page whose payload slot 1 holds `translate(0 + 4096) + 4096 = 8192`,
while the claim's per-page formula `translate(0 + 4096*(1 + 0*511 + 1))`
evaluates to 12288 — the code does not re-translate each page. -/
theorem C1_translate_per_page_counterexample :
    divCeil (0 % 4096 + 12288) 4096 = 3 ∧
    (0 : Nat) % 4096 = 0 ∧
    prpIsList (prpCreate cexAlloc prpSt0 0 12288) = true ∧
    (prpPages (prpCreate cexAlloc prpSt0 0 12288)).length = 1 ∧
    ((prpPages (prpCreate cexAlloc prpSt0 0 12288)).getD 0 default).entry 1 = 8192 ∧
    cexAlloc.translate (0 + 4096 * (1 + 0 * 511 + 1)) = 12288 ∧
    (8192 : Nat) ≠ 12288 := by decide

end NvmeRs
